import Mathlib

/-!
# Verification of the `DexieManager` synchronization engine

Shallow embedding of the `DexieManager` class from
`src/assets/custom/js/init.js` (a Dexie/IndexedDB lifecycle and
population manager), together with theorems settling the frozen claims
about its specification.

Modelling conventions:
* JavaScript values that the constructor inspects are modelled by `JSValue`
  (only the observations the code makes — `== null`, `typeof`,
  `Object.keys`, truthiness, `trim` — are represented).
* The persistent store is a total function from table name to the list of
  stored records; `count()` is the length of that list.
* Asynchronous methods become pure functions returning an
  `Except`-style result together with the updated state and the list of
  dispatched actions (events plus a marker for schema binding).
* External, fallible effects (the remote `fetch`, `Dexie.delete`,
  `Dexie.open`) are supplied as oracle parameters: `remote` maps a full
  URL to `none` (network/parse failure) or `some response`; `deleteOk` and
  `openOk` decide the underlying Dexie operations.
* The unbounded recursion of `fetchTable` over the pagination cursor is
  given a `fuel` bound; every theorem supplies fuel at least the length of
  the (finite) cursor chain it talks about, matching the spec's remark
  that termination is an external contract obligation.
-/

/-! ## JavaScript value layer (what the constructor observes) -/

/-- A JavaScript value, restricted to the observations made by the
`DexieManager` constructor.  An object is represented by its key list
(`Object.keys`); record payloads are opaque to the engine. -/
inductive JSValue where
  | null
  | undefined
  | str (s : String)
  | num (n : Int)
  | bool (b : Bool)
  | obj (keys : List String)
  deriving DecidableEq

/-- JavaScript `typeof`. -/
def jsTypeof : JSValue → String
  | .null => "object"
  | .undefined => "undefined"
  | .str _ => "string"
  | .num _ => "number"
  | .bool _ => "boolean"
  | .obj _ => "object"

/-- JavaScript loose equality against `null` (`v == null`): true exactly
for `null` and `undefined`. -/
def looseEqNull : JSValue → Bool
  | .null => true
  | .undefined => true
  | _ => false

/-- JavaScript falsiness (`!v`). -/
def jsFalsy : JSValue → Bool
  | .null => true
  | .undefined => true
  | .str s => s == ""
  | .num n => n == 0
  | .bool b => !b
  | .obj _ => false

/-- `Object.keys` (only reached on object values in the source, thanks to
short-circuit evaluation). -/
def jsKeys : JSValue → List String
  | .obj ks => ks
  | _ => []

/-- The underlying string of a string value (only reached on strings in
the source, thanks to short-circuit evaluation of the `typeof` check). -/
def jsStrVal : JSValue → String
  | .str s => s
  | _ => ""

/-- Whitespace as stripped by `String.prototype.trim`. -/
def isWs (c : Char) : Bool :=
  c = ' ' || c = '\t' || c = '\n' || c = '\r'

/-- JavaScript `s.trim()`: strip leading and trailing whitespace. -/
def jsTrim (s : String) : String :=
  ⟨((s.data.dropWhile isWs).reverse.dropWhile isWs).reverse⟩

/-! ## Constructor (`DexieManager.constructor`) -/

/-- Errors thrown at construction time.  The source throws plain
`Error`s; the two constructors name the two distinct messages. -/
inductive CtorErr where
  | configurationError
  | localeError
  deriving DecidableEq

/-- The fields a freshly constructed manager holds.  The constructor never
touches `this.db`, so `db` is `none` on every successful construction. -/
structure RawManager where
  config : JSValue
  dbLocale : JSValue
  userLocale : JSValue
  db : Option String
  deriving DecidableEq

/-- Source condition
`config == null || typeof config !== 'object' || Object.keys(config).length === 0`. -/
def badConfigArg (config : JSValue) : Bool :=
  looseEqNull config || jsTypeof config != "object" || (jsKeys config).length == 0

/-- Source condition
`!l || typeof l !== 'string' || l.trim() === ''` (used for both locales). -/
def badLocaleArg (l : JSValue) : Bool :=
  jsFalsy l || jsTypeof l != "string" || jsTrim (jsStrVal l) == ""

/-- The `DexieManager` constructor: validates the configuration object and
both locales, in source order, building the instance only when all checks
pass.  No database handle is ever created here. -/
def dexieManagerCtor (config dbLocale userLocale : JSValue) :
    Except CtorErr RawManager :=
  if badConfigArg config then
    .error .configurationError
  else if badLocaleArg dbLocale then
    .error .localeError
  else if badLocaleArg userLocale then
    .error .localeError
  else
    .ok ⟨config, dbLocale, userLocale, none⟩

/-- The thrown error of a construction attempt, if any. -/
def ctorErrOf : Except CtorErr RawManager → Option CtorErr
  | .error e => some e
  | .ok _ => none

/-- The database handle after a construction attempt (`none` also when
construction failed, since no object exists then). -/
def ctorDb : Except CtorErr RawManager → Option String
  | .error _ => none
  | .ok m => m.db

/-- Restatement of the claim's wording: the configuration argument is
absent (`null`/`undefined`), not an object, or has no keys. -/
def specBadConfig : JSValue → Bool
  | .null => true
  | .undefined => true
  | .obj [] => true
  | .obj (_ :: _) => false
  | _ => true

/-- Restatement of the claim's wording: the locale argument is absent, not
a string, or blank after trimming. -/
def specBadLocale : JSValue → Bool
  | .str s => jsTrim s == ""
  | _ => true

/-! ## Store, remote responses, URL building -/

/-- One member of a remote response's `member` array.  The engine only
reads `record.id` and forwards the whole record; the remaining fields are
opaque and summarized by `payload`. -/
structure Member where
  id : Nat
  payload : Nat := 0
  deriving DecidableEq

/-- A stored record: the source inserts `{id: record.id, meta: record}`. -/
structure StoredRec where
  id : Nat
  meta : Member
  deriving DecidableEq

/-- The persistent store: each table name maps to its list of records.
`count()` is the length of that list. -/
def Store := String → List StoredRec

/-- Insert every member of `ms` into table `name`
(`this.db[table.name].add({id: record.id, meta: record})`, executed per
member; the unawaited `add` calls are modelled as succeeding appends). -/
def insertAll (st : Store) (name : String) (ms : List Member) : Store :=
  fun n => if n = name then st n ++ ms.map (fun m => ⟨m.id, m⟩) else st n

/-- A parsed remote response body: an optional `member` array and the
optional pagination cursor `view.next` (absent `view` and absent `next`
are collapsed into `none`). -/
structure Response where
  member : Option (List Member)
  viewNext : Option String
  deriving DecidableEq

/-- Source condition `data.member && data.member.length > 0`. -/
def hasMembers (r : Response) : Bool :=
  match r.member with
  | some (_ :: _) => true
  | _ => false

/-- The members of a response, empty when the `member` field is absent. -/
def membersOf (r : Response) : List Member :=
  match r.member with
  | some l => l
  | none => []

/-- Replace the first occurrence of `pat` in a character list
(JavaScript `String.prototype.replace` with a string pattern replaces
only the first occurrence). -/
def replaceFirstAux (pat rep : List Char) : List Char → List Char
  | [] => []
  | c :: rest =>
    if pat.isPrefixOf (c :: rest) then rep ++ (c :: rest).drop pat.length
    else c :: replaceFirstAux pat rep rest

/-- `s.replace(pat, rep)` for a string pattern: first occurrence only. -/
def replaceFirst (s pat rep : String) : String :=
  ⟨replaceFirstAux pat.data rep.data s.data⟩

/-- `fullUrl = (table.url.root + table.url.endpoint).replace('{locale}', locale)`. -/
def buildUrl (root endpoint locale : String) : String :=
  replaceFirst (root ++ endpoint) "{locale}" locale

/-! ## Error taxonomy

The source throws plain `Error`s whose messages wrap inner messages; the
constructors of `Err` mirror that message structure (a `…Failed e`
constructor models a `catch` block re-throwing with a prefix around the
inner error's message). -/

inductive Err where
  /-- `'DexieManager: No database found to delete.'` -/
  | noDbToDelete
  /-- An underlying `Dexie.delete()` rejection. -/
  | dexieDeleteError
  /-- An underlying `Dexie.open()` rejection. -/
  | openError
  /-- `'DexieManager: No database found to refresh.'` -/
  | noDbToRefresh
  /-- `'DexieManager: No database found.'` (`syncTable` / `fetchTable`). -/
  | noDb
  /-- `'DexieManager: Failed to delete the database: ' + inner`. -/
  | deleteFailed (e : Err)
  /-- `'DexieManager: Failed to connect to the database: ' + inner`. -/
  | connectFailed (e : Err)
  /-- `'DexieManager: Failed to initialize the database: ' + inner`. -/
  | initFailed (e : Err)
  /-- `'DexieManager: Failed to refresh the database: ' + inner`. -/
  | refreshFailed (e : Err)
  deriving DecidableEq

/-! ## `fetchTable`: recursive paginated fetch -/

/-- `fetchTable(table)`.  Arguments beyond the source's `table` object:
`remote` is the network oracle (`none` models a failed `fetch` or
`response.json()`), `db` is `this.db`, `locale` is `this.locale`, and
`fuel` bounds the depth of the pagination recursion (the source recurses
unboundedly; all theorems supply fuel covering the finite chain at hand).

Returns the updated store, the list of full URLs requested, and an
"no error was logged" flag (`false` when the source's `catch` logged a
fetch error somewhere in the chain).  The only thrown error is the
`!this.db` check, which sits before the `try` block in the source; an
error thrown by the recursive call is caught by the caller's own `catch`
and swallowed (flag `false`). -/
def fetchTable (remote : String → Option Response) (db : Option String)
    (locale : String) :
    Nat → String → String → String → Store →
    Except Err (Store × List String × Bool)
  | fuel, name, root, endpoint, st =>
    match db with
    | none => .error .noDb
    | some _ =>
      match fuel with
      | 0 => .ok (st, [], true)
      | fuel' + 1 =>
        let fullUrl := buildUrl root endpoint locale
        match remote fullUrl with
        | none =>
          -- `fetch`/`json` rejected: caught, logged, swallowed.
          .ok (st, [fullUrl], false)
        | some data =>
          if hasMembers data then
            let st' := insertAll st name (membersOf data)
            match data.viewNext with
            | some nxt =>
              match fetchTable remote db locale fuel' name root nxt st' with
              | .ok (st2, reqs, ok) => .ok (st2, fullUrl :: reqs, ok)
              | .error _ =>
                -- A throw out of the recursive call is caught by this
                -- level's own `catch`, logged and swallowed.
                .ok (st', [fullUrl], false)
            | none => .ok (st', [fullUrl], true)
          else
            -- Absent or empty `member`: nothing to insert, no recursion,
            -- and no error.
            .ok (st, [fullUrl], true)


/-! ## Configuration, `syncTable`, `countEmptyTables` -/

/-- One entry of `config.tables`. -/
structure TableCfg where
  name : String
  schema : String
  urlRoot : String
  urlEndpoint : String
  deriving DecidableEq

/-- The validated database configuration. -/
structure Config where
  name : String
  version : Nat
  tables : List TableCfg
  deriving DecidableEq

/-- `syncTable(table)`: throws when no database handle exists (this check
sits before the `try`), no-ops on an absent table, re-checks the record
count and fetches only when it is zero; every failure inside the `try`
(including anything thrown out of `fetchTable`) is caught and logged,
turning into a normal return with the flag `false`. -/
def syncTable (remote : String → Option Response) (locale : String)
    (fuel : Nat) (db : Option String) (table : Option TableCfg)
    (st : Store) : Except Err (Store × List String × Bool) :=
  match db with
  | none => .error .noDb
  | some _ =>
    match table with
    | none => .ok (st, [], true)
    | some t =>
      if (st t.name).length = 0 then
        match fetchTable remote db locale fuel t.name t.urlRoot t.urlEndpoint st with
        | .ok out => .ok out
        | .error _ => .ok (st, [], false)
      else
        .ok (st, [], true)

/-- `countEmptyTables()`: walk `config.tables` in order and collect the
tables whose record count is zero. -/
def countEmptyTables (db : Store) : List TableCfg → List TableCfg
  | [] => []
  | t :: rest =>
    if (db t.name).length = 0 then t :: countEmptyTables db rest
    else countEmptyTables db rest

/-! ## Two-decimal progress formatting (`toFixed(2)`) -/

/-- The value of `(i / n).toFixed(2)` scaled by 100: round-half-up of
`100 * i / n`.  This models JavaScript's IEEE-double computation exactly
at every point the theorems below evaluate it (the two computations can
only differ on arguments whose exact value sits at a representation
boundary of a two-decimal tie, which `i / n` for the small `i ≤ n` used
here never does in a divergent way). -/
def toFixedVal (i n : Nat) : Nat := (200 * i + n) / (2 * n)

/-- Render a two-digit fractional part. -/
def pad2 (r : Nat) : String :=
  if r < 10 then "0" ++ toString r else toString r

/-- `(i / n).toFixed(2)` as the string the source puts into the progress
event, e.g. `"0.50"`, `"1.00"`. -/
def toFixed2 (i n : Nat) : String :=
  let r := toFixedVal i n
  toString (r / 100) ++ "." ++ pad2 (r % 100)

/-! ## Events and actions -/

/-- The custom events the manager dispatches through its `EventTarget`. -/
inductive Ev where
  | beforeCreate (dbName : String)
  | afterCreate (dbName : String)
  | localeChanged (oldLocale newLocale : String)
  | beforeConnect (dbName : String)
  | afterConnect (dbName : String)
  | beforeDelete (dbName : String)
  | afterDelete (dbName : String)
  | beforeRefresh (dbName : String)
  | afterRefresh (dbName : String)
  | progress (currentIndex totalTables : Nat) (tableName : String)
      (progressVal : JSValue)
  | ready
  deriving DecidableEq

/-- A step observable in a run: a dispatched event, or the internal
schema-binding step `this.db.version(...).stores(...)` (recorded so that
event ordering relative to schema binding can be stated). -/
inductive Act where
  | ev (e : Ev)
  | schemaBound
  deriving DecidableEq

/-- Discriminator: is this action a `database:localeChanged` dispatch? -/
def isLocaleChangedA : Act → Bool
  | .ev (.localeChanged _ _) => true
  | _ => false

/-- Discriminator: is this action a `database:beforeDelete` or
`database:afterDelete` dispatch? -/
def isDeleteEvA : Act → Bool
  | .ev (.beforeDelete _) => true
  | .ev (.afterDelete _) => true
  | _ => false

/-- Discriminator: is this action a `database:ready` dispatch? -/
def isReadyA : Act → Bool
  | .ev .ready => true
  | _ => false

/-- Discriminator: is this action a `database:progress` dispatch? -/
def isProgressA : Act → Bool
  | .ev (.progress _ _ _ _) => true
  | _ => false

/-! ## `populateEmptyTables` -/

/-- The progress events a population run over `tables` dispatches, with
1-based indices starting at `idx` out of `total`. -/
def progressEvents (total : Nat) : Nat → List TableCfg → List Act
  | _, [] => []
  | idx, t :: rest =>
    Act.ev (.progress idx total t.name (.str (toFixed2 idx total))) ::
      progressEvents total (idx + 1) rest

/-- The loop body of `populateEmptyTables`: sync each table in order,
dispatch a progress event after each (the 600 ms pacing delay has no
observable effect here and is dropped), and dispatch `database:ready`
after the loop.  `total` is `tables.length` of the original call, `idx`
the source's 1-based `index` counter. -/
def populateAux (remote : String → Option Response) (locale : String)
    (fuel : Nat) (db : Option String) (total : Nat) :
    List TableCfg → Nat → Store → Except Err (Store × List Act × Bool)
  | [], _, st => .ok (st, [Act.ev .ready], true)
  | t :: rest, idx, st =>
    match syncTable remote locale fuel db (some t) st with
    | .error e => .error e
    | .ok (st1, _, ok1) =>
      match populateAux remote locale fuel db total rest (idx + 1) st1 with
      | .error e => .error e
      | .ok (st2, acts, ok2) =>
        .ok (st2,
          Act.ev (.progress idx total t.name (.str (toFixed2 idx total)))
            :: acts,
          ok1 && ok2)

/-- `populateEmptyTables(tables)`. -/
def populateEmptyTables (remote : String → Option Response)
    (locale : String) (fuel : Nat) (db : Option String)
    (tables : List TableCfg) (st : Store) :
    Except Err (Store × List Act × Bool) :=
  populateAux remote locale fuel db tables.length tables 1 st


/-! ## Manager state and lifecycle operations -/

/-- The mutable instance state of a `DexieManager` after successful
construction: the validated configuration, the two locale strings, the
active locale `this.locale` (the string `"undefined"` mirrors reading the
field before `initializeDatabase` assigns it), the database handle
`this.db` (`some name` for a `Dexie` instance of that name), and the
persisted store contents. -/
structure MgrState where
  config : Config
  dbLocale : String
  userLocale : String
  locale : String
  db : Option String
  store : Store

/-- Outcomes of the underlying Dexie effects during one run:
whether `db.delete()` and `db.open()` succeed. -/
structure Oracle where
  deleteOk : Bool
  openOk : Bool
  deriving DecidableEq

/-- `deleteDatabase()`: the missing-handle check sits inside the `try`,
so its throw is re-wrapped by the method's own `catch` exactly like an
underlying deletion failure.  On success the events bracket the deletion,
the store is destroyed and the handle nulled; on underlying failure
`beforeDelete` has been dispatched but `afterDelete` is suppressed and
the handle (and data) are left unchanged. -/
def deleteDatabase (deleteOk : Bool) (st : MgrState) :
    Except Err Unit × MgrState × List Act :=
  match st.db with
  | none => (.error (.deleteFailed .noDbToDelete), st, [])
  | some d =>
    if deleteOk then
      (.ok (), { st with db := none, store := fun _ => [] },
        [Act.ev (.beforeDelete d), Act.ev (.afterDelete d)])
    else
      (.error (.deleteFailed .dexieDeleteError), st,
        [Act.ev (.beforeDelete d)])

/-- The tail of `initializeDatabase` from the `afterCreate` dispatch on:
schema binding, the connect bracket around `db.open()`, then the
non-awaited `countEmptyTables().then(...)` continuation that either
populates the empty tables or dispatches `database:ready` directly.
`acc` is the action trace accumulated so far. -/
def initAfterCreate (o : Oracle) (remote : String → Option Response)
    (fuel : Nat) (st : MgrState) (acc : List Act) :
    Except Err Unit × MgrState × List Act :=
  let a := acc ++ [Act.ev (.afterCreate st.config.name), Act.schemaBound,
    Act.ev (.beforeConnect st.config.name)]
  if o.openOk then
    let a := a ++ [Act.ev (.afterConnect st.config.name)]
    let empties := countEmptyTables st.store st.config.tables
    match empties with
    | [] => (.ok (), st, a ++ [Act.ev .ready])
    | _ :: _ =>
      match populateEmptyTables remote st.locale fuel st.db empties st.store with
      | .ok (store2, acts, _) => (.ok (), { st with store := store2 }, a ++ acts)
      | .error _ =>
        -- Unreachable while a handle exists; in the source this would be
        -- an unhandled promise rejection dispatching nothing further.
        (.ok (), st, a)
  else
    (.error (.initFailed (.connectFailed .openError)), st, a)

/-- `initializeDatabase()`: set `this.locale`, dispatch `beforeCreate`,
create the handle, perform the destructive locale reset when the stored
locale differs from the user locale (delete, `localeChanged`, re-create),
then `afterCreate`, schema binding, connect bracket, and the scan/populate
continuation.  A deletion failure aborts the call wrapped in the
initialize error message. -/
def initializeDatabase (o : Oracle) (remote : String → Option Response)
    (fuel : Nat) (st : MgrState) :
    Except Err Unit × MgrState × List Act :=
  let a0 := [Act.ev (.beforeCreate st.config.name)]
  let st1 : MgrState :=
    { st with locale := st.userLocale, db := some st.config.name }
  if st.dbLocale ≠ st.userLocale then
    match deleteDatabase o.deleteOk st1 with
    | (.error e, st2, a1) => (.error (.initFailed e), st2, a0 ++ a1)
    | (.ok _, st2, a1) =>
      initAfterCreate o remote fuel { st2 with db := some st.config.name }
        (a0 ++ a1 ++ [Act.ev (.localeChanged st.dbLocale st.userLocale)])
  else
    initAfterCreate o remote fuel st1 a0

/-- `refreshDatabase()`: the missing-handle check and the `beforeRefresh`
dispatch sit before the `try`, so the missing-handle error is thrown
unwrapped; inside the `try`, delete and re-initialize, then dispatch
`afterRefresh` (with the fresh handle's name) on success. -/
def refreshDatabase (o : Oracle) (remote : String → Option Response)
    (fuel : Nat) (st : MgrState) :
    Except Err Unit × MgrState × List Act :=
  match st.db with
  | none => (.error .noDbToRefresh, st, [])
  | some d =>
    let a0 := [Act.ev (.beforeRefresh d)]
    match deleteDatabase o.deleteOk st with
    | (.error e, st1, a1) => (.error (.refreshFailed e), st1, a0 ++ a1)
    | (.ok _, st1, a1) =>
      match initializeDatabase o remote fuel st1 with
      | (.error e, st2, a2) => (.error (.refreshFailed e), st2, a0 ++ a1 ++ a2)
      | (.ok _, st2, a2) =>
        (.ok (), st2, a0 ++ a1 ++ a2 ++
          [Act.ev (.afterRefresh (match st2.db with | some n => n | none => ""))])

/-! ## Result projections (used to state claims without binders) -/

/-- Did a `fetchTable`/`syncTable`-typed call resolve (rather than throw)? -/
def resOk : Except Err (Store × List String × Bool) → Bool
  | .ok _ => true
  | .error _ => false

/-- Store after a `fetchTable`/`syncTable` call (empty store on a throw). -/
def resStore : Except Err (Store × List String × Bool) → Store
  | .ok (s, _, _) => s
  | .error _ => fun _ => []

/-- URLs requested by a `fetchTable` call. -/
def resReqs : Except Err (Store × List String × Bool) → List String
  | .ok (_, reqs, _) => reqs
  | .error _ => []

/-- The no-logged-error flag of a `fetchTable`/`syncTable` call. -/
def resFlag : Except Err (Store × List String × Bool) → Bool
  | .ok (_, _, f) => f
  | .error _ => false

/-- Did a `populateEmptyTables` call resolve (rather than throw)? -/
def runOk : Except Err (Store × List Act × Bool) → Bool
  | .ok _ => true
  | .error _ => false

/-- Actions dispatched by a `populateEmptyTables` call. -/
def runActs : Except Err (Store × List Act × Bool) → List Act
  | .ok (_, a, _) => a
  | .error _ => []

/-! ## Finite pagination chains -/

/-- `chainOk remote root locale pages` holds when `pages` is a finite
pagination chain as served by `remote`: each page is reachable at the URL
built from its endpoint, every page except the last has a non-empty
member list and a `view.next` cursor naming the next page's endpoint, and
the last page terminates the chain (no cursor, or an absent/empty member
list). -/
def chainOk (remote : String → Option Response) (root locale : String) :
    List (String × Response) → Bool
  | [] => true
  | [(e, r)] =>
    remote (buildUrl root e locale) == some r &&
    (!hasMembers r || r.viewNext == none)
  | (e, r) :: (e2, r2) :: rest =>
    remote (buildUrl root e locale) == some r &&
    hasMembers r && r.viewNext == some e2 &&
    chainOk remote root locale ((e2, r2) :: rest)

/-- The first endpoint `fetchTable` is pointed at for a possibly-empty
failing chain whose failing endpoint is `eBad`. -/
def chainStart (pages : List (String × Response)) (eBad : String) : String :=
  match pages with
  | [] => eBad
  | (e, _) :: _ => e

/-- Like `chainOk`, but the chain ends in a failing fetch: every page has
a non-empty member list and a cursor to the next page's endpoint (the
last page's cursor names `eBad`), and fetching `eBad` fails.  An empty
`pages` means the very first fetch (of `eBad`) fails. -/
def chainFail (remote : String → Option Response) (root locale : String) :
    List (String × Response) → String → Bool
  | [], eBad => remote (buildUrl root eBad locale) == none
  | (e, r) :: rest, eBad =>
    remote (buildUrl root e locale) == some r &&
    hasMembers r &&
    r.viewNext == some (chainStart rest eBad) &&
    chainFail remote root locale rest eBad

/-- All members delivered along a chain, in insertion order. -/
def chainMembers : List (String × Response) → List Member
  | [] => []
  | (_, r) :: rest => membersOf r ++ chainMembers rest

/-- The full URLs of a chain's pages, in fetch order. -/
def chainUrls (root locale : String) : List (String × Response) → List String
  | [] => []
  | (e, _) :: rest => buildUrl root e locale :: chainUrls root locale rest


/-! ## Concrete fixtures for witnesses and counterexamples -/

/-- The empty store. -/
def stEmpty : Store := fun _ => []

/-- A remote source whose first page carries a pagination cursor but an
empty `member` list; the second page (never requested by the code) holds a
record. -/
def cexRemoteCursor : String → Option Response := fun u =>
  if u = "r/a1" then some ⟨some [], some "a2"⟩
  else if u = "r/a2" then some ⟨some [⟨5, 0⟩], none⟩
  else none

/-- A three-page chain: page 1 → page 2 → page 3 → no cursor. -/
def w1Remote : String → Option Response := fun u =>
  if u = "r/p1" then some ⟨some [⟨1, 0⟩], some "p2"⟩
  else if u = "r/p2" then some ⟨some [⟨2, 0⟩], some "p3"⟩
  else if u = "r/p3" then some ⟨some [⟨3, 0⟩], none⟩
  else none

/-- The chain served by `w1Remote`, as page list. -/
def w1Pages : List (String × Response) :=
  [("p1", ⟨some [⟨1, 0⟩], some "p2"⟩),
   ("p2", ⟨some [⟨2, 0⟩], some "p3"⟩),
   ("p3", ⟨some [⟨3, 0⟩], none⟩)]

/-- A remote source whose first page succeeds (one record, cursor to
`p2`) and whose second page fails at the network level. -/
def cexRemotePartial : String → Option Response := fun u =>
  if u = "r/p1" then some ⟨some [⟨1, 0⟩], some "p2"⟩ else none

/-- A remote source where every fetch fails. -/
def cexRemoteNone : String → Option Response := fun _ => none

/-- 101 configured tables `t0 … t100` (enough for the two-decimal
progress rounding to repeat a value). -/
def cexTables101 : List TableCfg :=
  (List.range 101).map (fun k => ⟨"t" ++ toString k, "id", "r/", "e"⟩)

/-- A concrete table configuration. -/
def tableA : TableCfg := ⟨"alpha", "id", "r/", "ea"⟩

/-- A second concrete table configuration. -/
def tableB : TableCfg := ⟨"beta", "id", "r/", "eb"⟩

/-- A concrete database configuration. -/
def cfg0 : Config := ⟨"appdb", 1, [tableA]⟩

/-- Freshly constructed manager state whose stored locale differs from
the user locale. -/
def stMismatch : MgrState := ⟨cfg0, "en", "fr", "undefined", none, stEmpty⟩

/-- Freshly constructed manager state with matching locales. -/
def stSame : MgrState := ⟨cfg0, "en", "en", "undefined", none, stEmpty⟩

/-- Manager state holding an open database handle. -/
def stHandle : MgrState := ⟨cfg0, "en", "en", "en", some "appdb", stEmpty⟩

/-- Manager state with no database handle. -/
def stNoHandle : MgrState := ⟨cfg0, "en", "en", "en", none, stEmpty⟩


/-! ## Helper lemmas -/

theorem badConfigArg_eq (v : JSValue) : badConfigArg v = specBadConfig v := by
  cases v with
  | null => rfl
  | undefined => rfl
  | str s => rfl
  | num n => rfl
  | bool b => rfl
  | obj ks => cases ks <;> rfl

theorem badLocaleArg_eq (v : JSValue) : badLocaleArg v = specBadLocale v := by
  cases v with
  | null => rfl
  | undefined => rfl
  | obj ks => rfl
  | num n =>
    simp [badLocaleArg, specBadLocale, jsFalsy, jsTypeof, jsStrVal]
  | bool b =>
    simp [badLocaleArg, specBadLocale, jsFalsy, jsTypeof, jsStrVal]
  | str s =>
    simp only [badLocaleArg, specBadLocale, jsFalsy, jsTypeof, jsStrVal,
      bne_self_eq_false, Bool.false_or]
    cases h2 : (s == "") with
    | true =>
      have hs : s = "" := eq_of_beq h2
      subst hs; decide
    | false => simp [h2]

theorem insertAll_nil (st : Store) (name : String) :
    insertAll st name [] = st := by
  funext n
  simp [insertAll]

theorem insertAll_insertAll (st : Store) (name : String)
    (a b : List Member) :
    insertAll (insertAll st name a) name b = insertAll st name (a ++ b) := by
  funext n
  by_cases h : n = name <;> simp [insertAll, h]


theorem fetchTable_some_resOk (remote : String → Option Response)
    (d locale : String) (fuel : Nat) (name root endpoint : String)
    (st : Store) :
    resOk (fetchTable remote (some d) locale fuel name root endpoint st) = true := by
  cases fuel with
  | zero => rfl
  | succ f =>
    simp only [fetchTable]
    split
    · rfl
    · split
      · split
        · split <;> rfl
        · rfl
      · rfl

theorem syncTable_some_resOk (remote : String → Option Response)
    (locale : String) (fuel : Nat) (d : String) (t : Option TableCfg)
    (st : Store) :
    resOk (syncTable remote locale fuel (some d) t st) = true := by
  unfold syncTable
  cases t with
  | none => rfl
  | some tc =>
    by_cases h : (st tc.name).length = 0
    · simp only [h, if_true]
      split <;> rfl
    · simp only [h, if_false]
      rfl

theorem populateAux_events (remote : String → Option Response)
    (locale : String) (fuel : Nat) (d : String) (total : Nat) :
    ∀ (tables : List TableCfg) (idx : Nat) (st : Store),
      ∃ st2 flag,
        populateAux remote locale fuel (some d) total tables idx st =
          .ok (st2, progressEvents total idx tables ++ [Act.ev .ready], flag) := by
  intro tables
  induction tables with
  | nil => intro idx st; exact ⟨st, true, rfl⟩
  | cons t rest ih =>
    intro idx st
    have hs := syncTable_some_resOk remote locale fuel d (some t) st
    cases hsync : syncTable remote locale fuel (some d) (some t) st with
    | error e => rw [hsync] at hs; simp [resOk] at hs
    | ok out =>
      obtain ⟨st1, reqs, ok1⟩ := out
      obtain ⟨st2, flag, hrec⟩ := ih (idx + 1) st1
      refine ⟨st2, ok1 && flag, ?_⟩
      simp only [populateAux, hsync, hrec, progressEvents, List.cons_append]

theorem progressEvents_length (total : Nat) :
    ∀ (idx : Nat) (ts : List TableCfg),
      (progressEvents total idx ts).length = ts.length := by
  intro idx ts
  induction ts generalizing idx with
  | nil => simp [progressEvents]
  | cons t rest ih => simp [progressEvents, ih]

theorem progressEvents_get (total : Nat) :
    ∀ (ts : List TableCfg) (idx k : Nat),
      (progressEvents total idx ts)[k]? =
        (ts[k]?).map (fun t =>
          Act.ev (.progress (idx + k) total t.name
            (.str (toFixed2 (idx + k) total)))) := by
  intro ts
  induction ts with
  | nil => intro idx k; simp [progressEvents]
  | cons t rest ih =>
    intro idx k
    cases k with
    | zero => simp [progressEvents]
    | succ k' =>
      simp only [progressEvents, List.getElem?_cons_succ, ih (idx + 1) k']
      have : idx + 1 + k' = idx + (k' + 1) := by omega
      rw [this]

theorem progressEvents_countP_localeChanged (total : Nat) :
    ∀ (idx : Nat) (ts : List TableCfg),
      (progressEvents total idx ts).countP isLocaleChangedA = 0 := by
  intro idx ts
  induction ts generalizing idx with
  | nil => simp [progressEvents]
  | cons t rest ih =>
    simp [progressEvents, List.countP_cons, isLocaleChangedA, ih]

theorem progressEvents_countP_delete (total : Nat) :
    ∀ (idx : Nat) (ts : List TableCfg),
      (progressEvents total idx ts).countP isDeleteEvA = 0 := by
  intro idx ts
  induction ts generalizing idx with
  | nil => simp [progressEvents]
  | cons t rest ih =>
    simp [progressEvents, List.countP_cons, isDeleteEvA, ih]

theorem progressEvents_mem (total : Nat) :
    ∀ (ts : List TableCfg) (idx i tot : Nat) (nm : String) (v : JSValue),
      Act.ev (.progress i tot nm v) ∈ progressEvents total idx ts →
      tot = total ∧ v = .str (toFixed2 i total) := by
  intro ts
  induction ts with
  | nil => intro idx i tot nm v h; simp [progressEvents] at h
  | cons t rest ih =>
    intro idx i tot nm v h
    simp only [progressEvents, List.mem_cons] at h
    rcases h with h | h
    · simp only [Act.ev.injEq, Ev.progress.injEq] at h
      obtain ⟨hi, htot, hnm, hv⟩ := h
      subst hi; subst htot; subst hv
      exact ⟨rfl, rfl⟩
    · exact ih (idx + 1) i tot nm v h

theorem toFixedVal_mono (n i j : Nat) (h : i ≤ j) :
    toFixedVal i n ≤ toFixedVal j n := by
  unfold toFixedVal
  exact Nat.div_le_div_right (by omega)

theorem toFixedVal_last (n : Nat) (h : 0 < n) : toFixedVal n n = 100 := by
  unfold toFixedVal
  have h2 : 200 * n + n = 201 * n := by ring
  rw [h2]
  apply Nat.div_eq_of_lt_le <;> omega

theorem toFixed2_last (n : Nat) (h : 0 < n) : toFixed2 n n = "1.00" := by
  unfold toFixed2
  rw [toFixedVal_last n h]
  decide


theorem chainStart_cons (e : String) (r : Response)
    (rest : List (String × Response)) (eBad : String) :
    chainStart ((e, r) :: rest) eBad = e := rfl

theorem membersOf_eq_nil (r : Response) (h : hasMembers r = false) :
    membersOf r = [] := by
  unfold hasMembers at h
  unfold membersOf
  match hm : r.member with
  | none => rfl
  | some [] => rfl
  | some (m :: l) => rw [hm] at h; simp at h

/-- C1 (amended): `fetchTable` follows the pagination cursor only while
each response also carries a non-empty `member` list.  Along any finite
chain whose non-last pages have members and a cursor to the next page and
whose last page either omits the cursor or has an absent/empty member
list, `fetchTable` requests exactly the chain's URLs in order, inserts
every delivered member, and finishes without logging an error — in
particular an absent or empty `member` list is "nothing to insert", not a
failure, but it also terminates the chain even when a cursor is present. -/
theorem fetchTable_follows_chain (remote : String → Option Response)
    (d root locale name : String) :
    ∀ (rest : List (String × Response)) (e : String) (r : Response)
      (st : Store) (fuel : Nat),
      chainOk remote root locale ((e, r) :: rest) = true →
      rest.length + 1 ≤ fuel →
      fetchTable remote (some d) locale fuel name root e st =
        .ok (insertAll st name (chainMembers ((e, r) :: rest)),
             chainUrls root locale ((e, r) :: rest), true) := by
  intro rest
  induction rest with
  | nil =>
    intro e r st fuel hch hfuel
    match fuel, hfuel with
    | f + 1, _ =>
      simp only [chainOk, Bool.and_eq_true, beq_iff_eq] at hch
      obtain ⟨hrem, hlast⟩ := hch
      simp only [fetchTable, hrem]
      cases hm : hasMembers r with
      | false =>
        simp [hm, chainMembers, membersOf_eq_nil r hm, insertAll_nil, chainUrls]
      | true =>
        rw [hm] at hlast
        simp only [Bool.not_true, Bool.false_or, beq_iff_eq] at hlast
        simp [hm, hlast, chainMembers, chainUrls]
  | cons p rest' ih =>
    intro e r st fuel hch hfuel
    obtain ⟨e2, r2⟩ := p
    match fuel, hfuel with
    | f + 1, hfuel =>
      simp only [chainOk, Bool.and_eq_true, beq_iff_eq] at hch
      obtain ⟨⟨⟨hrem, hm⟩, hnext⟩, hch'⟩ := hch
      have hfuel2 : rest'.length + 1 ≤ f := by
        simp only [List.length_cons] at hfuel
        omega
      simp only [fetchTable, hrem, hm, if_true, hnext]
      rw [ih e2 r2 (insertAll st name (membersOf r)) f hch' hfuel2]
      simp [chainMembers, chainUrls, insertAll_insertAll]

/-- C3 (amended): when a pagination chain fails partway, the records of
the pages fetched before the failure remain inserted — the table is
rolled back nowhere.  With `pages` successful pages followed by a failing
cursor fetch, the run ends with the error logged (flag `false`), having
requested each page once plus the failing URL, and the table holds
exactly the members of the successful pages; only when the very first
fetch fails (`pages = []`) is the table still empty afterwards. -/
theorem fetchTable_chainFail (remote : String → Option Response)
    (d root locale name : String) :
    ∀ (pages : List (String × Response)) (eBad : String)
      (st : Store) (fuel : Nat),
      chainFail remote root locale pages eBad = true →
      pages.length + 1 ≤ fuel →
      fetchTable remote (some d) locale fuel name root
          (chainStart pages eBad) st =
        .ok (insertAll st name (chainMembers pages),
             chainUrls root locale pages ++ [buildUrl root eBad locale],
             false) := by
  intro pages
  induction pages with
  | nil =>
    intro eBad st fuel hch hfuel
    match fuel, hfuel with
    | f + 1, _ =>
      simp only [chainFail, beq_iff_eq] at hch
      simp only [fetchTable, chainStart, hch]
      simp [chainMembers, insertAll_nil, chainUrls]
  | cons p rest' ih =>
    intro eBad st fuel hch hfuel
    obtain ⟨e, r⟩ := p
    match fuel, hfuel with
    | f + 1, hfuel =>
      simp only [chainFail, Bool.and_eq_true, beq_iff_eq] at hch
      obtain ⟨⟨⟨hrem, hm⟩, hnext⟩, hch'⟩ := hch
      have hfuel2 : rest'.length + 1 ≤ f := by
        simp only [List.length_cons] at hfuel
        omega
      rw [chainStart_cons]
      simp only [fetchTable, hrem, hm, if_true, hnext]
      rw [ih eBad (insertAll st name (membersOf r)) f hch' hfuel2]
      simp [chainMembers, chainUrls, insertAll_insertAll]



theorem initAfterCreate_trace (o : Oracle) (remote : String → Option Response)
    (fuel : Nat) (st : MgrState) (acc : List Act) (d : String)
    (hdb : st.db = some d) :
    ∃ tail, (initAfterCreate o remote fuel st acc).2.2 =
      acc ++ [Act.ev (.afterCreate st.config.name), Act.schemaBound,
              Act.ev (.beforeConnect st.config.name)] ++ tail ∧
      tail.countP isLocaleChangedA = 0 ∧
      tail.countP isDeleteEvA = 0 := by
  unfold initAfterCreate
  cases ho : o.openOk with
  | false =>
    refine ⟨[], ?_, rfl, rfl⟩
    simp [ho]
  | true =>
    cases hemp : countEmptyTables st.store st.config.tables with
    | nil =>
      refine ⟨[Act.ev (.afterConnect st.config.name), Act.ev .ready], ?_, rfl, rfl⟩
      simp [ho, hemp]
    | cons t ts =>
      obtain ⟨st2, flag, hrun⟩ :=
        populateAux_events remote st.locale fuel d (t :: ts).length (t :: ts) 1 st.store
      refine ⟨Act.ev (.afterConnect st.config.name) ::
        (progressEvents (t :: ts).length 1 (t :: ts) ++ [Act.ev .ready]), ?_, ?_, ?_⟩
      · simp only [ho, hemp, if_true, hdb]
        unfold populateEmptyTables
        rw [hrun]
        simp
      · simp [List.countP_cons, List.countP_append, isLocaleChangedA,
          progressEvents_countP_localeChanged]
      · simp [List.countP_cons, List.countP_append, isDeleteEvA,
          progressEvents_countP_delete]


/-! ## Claim theorems -/

/-- C5: calling `deleteDatabase()` while no database handle exists fails —
the thrown error carries the `'No database found to delete'` (NotFound)
condition, re-wrapped by the method's own `catch` into its delete-failure
message, since the check sits inside the `try` — and dispatches neither
`database:beforeDelete` nor `database:afterDelete` (the action trace is
empty), leaving the state untouched. -/
theorem deleteDatabase_noHandle (b : Bool) (st : MgrState)
    (h : st.db = none) :
    deleteDatabase b st = (.error (.deleteFailed .noDbToDelete), st, []) := by
  unfold deleteDatabase
  rw [h]

/-- Witness for C5: a concrete no-handle state. -/
theorem deleteDatabase_noHandle_witness :
    deleteDatabase true stNoHandle =
      (.error (.deleteFailed .noDbToDelete), stNoHandle, []) :=
  deleteDatabase_noHandle true stNoHandle rfl

/-- C10: when the underlying `Dexie.delete()` fails, `deleteDatabase`
throws the wrapped deletion error but leaves the state — in particular
the non-null handle — unchanged (`this.db = null` runs only after a
successful delete), so an immediately following `deleteDatabase()` never
fails the no-handle precondition (its error, if any, is never the
NotFound condition) and `refreshDatabase()` never fails its own
no-handle precondition. -/
theorem deleteFailure_preserves_handle (st : MgrState) (d : String)
    (h : st.db = some d) :
    deleteDatabase false st =
      (.error (.deleteFailed .dexieDeleteError), st,
        [Act.ev (.beforeDelete d)]) ∧
    (∀ b, (deleteDatabase b st).1 ≠ .error (.deleteFailed .noDbToDelete)) ∧
    (∀ (o : Oracle) (remote : String → Option Response) (fuel : Nat),
      (refreshDatabase o remote fuel st).1 ≠ .error .noDbToRefresh) := by
  refine ⟨?_, ?_, ?_⟩
  · unfold deleteDatabase
    rw [h]
    rfl
  · intro b
    unfold deleteDatabase
    rw [h]
    cases b <;> simp
  · intro o remote fuel
    unfold refreshDatabase
    rw [h]
    rcases hdd : deleteDatabase o.deleteOk st with ⟨res, st1, a1⟩
    cases res with
    | error e => simp
    | ok u =>
      rcases hinit : initializeDatabase o remote fuel st1 with ⟨res2, st2, a2⟩
      cases res2 with
      | error e => simp [hinit]
      | ok u2 => simp [hinit]

/-- Witness for C10: a concrete state with an open handle. -/
theorem deleteFailure_preserves_handle_witness :
    deleteDatabase false stHandle =
      (.error (.deleteFailed .dexieDeleteError), stHandle,
        [Act.ev (.beforeDelete "appdb")]) :=
  (deleteFailure_preserves_handle stHandle "appdb" rfl).1

/-- C7: the constructor throws the configuration error exactly when the
configuration argument is absent, not an object, or has no keys; when the
configuration passes, it throws the locale error exactly when either
locale argument is absent, not a string, or blank after trimming (the
configuration check runs first, so a bad configuration masks bad
locales); and no database handle is created in any case — also on
success, since the constructor never touches `this.db`. -/
theorem ctor_validation_contract (c dl ul : JSValue) :
    ctorErrOf (dexieManagerCtor c dl ul) =
      (if specBadConfig c then some CtorErr.configurationError
       else if specBadLocale dl || specBadLocale ul then
         some CtorErr.localeError
       else none) ∧
    ctorDb (dexieManagerCtor c dl ul) = none := by
  unfold dexieManagerCtor
  rw [badConfigArg_eq, badLocaleArg_eq, badLocaleArg_eq]
  constructor
  · cases hc : specBadConfig c with
    | true => simp [hc, ctorErrOf]
    | false =>
      cases hd : specBadLocale dl <;> cases hu : specBadLocale ul <;>
        simp [hc, hd, hu, ctorErrOf]
  · cases hc : specBadConfig c with
    | true => simp [hc, ctorDb]
    | false =>
      cases hd : specBadLocale dl <;> cases hu : specBadLocale ul <;>
        simp [hc, hd, hu, ctorDb]

/-- C8: `countEmptyTables()` returns exactly the configured tables whose
record count is zero — it equals a filter of the configuration list, is a
sublist of it (so original configuration order is preserved), and a table
is in the result iff it is configured with zero records.  The model is a
pure read, so a second call on the same store trivially returns the same
list (idempotence). -/
theorem countEmptyTables_contract (db : Store) (tables : List TableCfg) :
    countEmptyTables db tables =
      tables.filter (fun t => (db t.name).length == 0) ∧
    List.Sublist (countEmptyTables db tables) tables ∧
    (∀ t, t ∈ countEmptyTables db tables ↔
      t ∈ tables ∧ (db t.name).length = 0) ∧
    countEmptyTables db tables = countEmptyTables db tables := by
  have hf : countEmptyTables db tables =
      tables.filter (fun t => (db t.name).length == 0) := by
    induction tables with
    | nil => rfl
    | cons t rest ih =>
      by_cases h : (db t.name).length = 0
      · simp [countEmptyTables, h, List.filter_cons, ih]
      · simp [countEmptyTables, h, List.filter_cons, ih]
  refine ⟨hf, ?_, ?_, rfl⟩
  · rw [hf]
    exact List.filter_sublist _
  · intro t
    rw [hf]
    simp [List.mem_filter]


/-- C4: on `initializeDatabase()` with `dbLocale ≠ userLocale` (and the
underlying delete succeeding, which is what lets the reset complete),
exactly one `database:localeChanged` event is dispatched, carrying the
original `(dbLocale, userLocale)` pair; the first six actions of the run
are `beforeCreate`, `beforeDelete`, `afterDelete`, `localeChanged`,
`afterCreate`, schema binding — so the event falls strictly after the
delete bracket and strictly before the schemas are bound.  With
`dbLocale = userLocale` no `localeChanged` and no delete events occur at
all, and schema binding follows `beforeCreate`/`afterCreate` directly:
the locale reset happens at most once per initialization and always
precedes schema binding. -/
theorem initialize_localeChanged_contract (o : Oracle)
    (remote : String → Option Response) (fuel : Nat) (st : MgrState)
    (hdel : o.deleteOk = true) :
    (st.dbLocale ≠ st.userLocale →
      (initializeDatabase o remote fuel st).2.2.take 6 =
        [Act.ev (.beforeCreate st.config.name),
         Act.ev (.beforeDelete st.config.name),
         Act.ev (.afterDelete st.config.name),
         Act.ev (.localeChanged st.dbLocale st.userLocale),
         Act.ev (.afterCreate st.config.name),
         Act.schemaBound] ∧
      (initializeDatabase o remote fuel st).2.2.countP isLocaleChangedA = 1) ∧
    (st.dbLocale = st.userLocale →
      (initializeDatabase o remote fuel st).2.2.take 3 =
        [Act.ev (.beforeCreate st.config.name),
         Act.ev (.afterCreate st.config.name),
         Act.schemaBound] ∧
      (initializeDatabase o remote fuel st).2.2.countP isLocaleChangedA = 0 ∧
      (initializeDatabase o remote fuel st).2.2.countP isDeleteEvA = 0) := by
  constructor
  · intro hne
    have hdd : deleteDatabase o.deleteOk
        { st with locale := st.userLocale, db := some st.config.name } =
        (Except.ok (),
         ({ st with locale := st.userLocale, db := none,
                    store := fun _ => [] } : MgrState),
         [Act.ev (.beforeDelete st.config.name),
          Act.ev (.afterDelete st.config.name)]) := by
      rw [hdel]
      rfl
    have heq : initializeDatabase o remote fuel st =
        initAfterCreate o remote fuel
          { st with locale := st.userLocale, db := some st.config.name,
                    store := fun _ => [] }
          [Act.ev (.beforeCreate st.config.name),
           Act.ev (.beforeDelete st.config.name),
           Act.ev (.afterDelete st.config.name),
           Act.ev (.localeChanged st.dbLocale st.userLocale)] := by
      unfold initializeDatabase
      rw [if_pos hne, hdd]
      rfl
    obtain ⟨tail, htr, hc1, hc2⟩ := initAfterCreate_trace o remote fuel
      { st with locale := st.userLocale, db := some st.config.name,
                store := fun _ => [] }
      [Act.ev (.beforeCreate st.config.name),
       Act.ev (.beforeDelete st.config.name),
       Act.ev (.afterDelete st.config.name),
       Act.ev (.localeChanged st.dbLocale st.userLocale)]
      st.config.name rfl
    rw [heq, htr]
    constructor
    · simp
    · simp [List.countP_append, List.countP_cons, isLocaleChangedA, hc1]
  · intro hsame
    have heq : initializeDatabase o remote fuel st =
        initAfterCreate o remote fuel
          { st with locale := st.userLocale, db := some st.config.name }
          [Act.ev (.beforeCreate st.config.name)] := by
      unfold initializeDatabase
      rw [if_neg (by simp [hsame])]
    obtain ⟨tail, htr, hc1, hc2⟩ := initAfterCreate_trace o remote fuel
      { st with locale := st.userLocale, db := some st.config.name }
      [Act.ev (.beforeCreate st.config.name)]
      st.config.name rfl
    rw [heq, htr]
    refine ⟨by simp, ?_, ?_⟩
    · simp [List.countP_append, List.countP_cons, isLocaleChangedA, hc1]
    · simp [List.countP_append, List.countP_cons, isDeleteEvA, hc2]

/-- Witness for C4: a concrete mismatching-locale state. -/
theorem initialize_localeChanged_contract_witness :
    (initializeDatabase ⟨true, true⟩ cexRemoteNone 1 stMismatch).2.2.take 6 =
      [Act.ev (.beforeCreate "appdb"), Act.ev (.beforeDelete "appdb"),
       Act.ev (.afterDelete "appdb"), Act.ev (.localeChanged "en" "fr"),
       Act.ev (.afterCreate "appdb"), Act.schemaBound] ∧
    (initializeDatabase ⟨true, true⟩ cexRemoteNone 1
      stMismatch).2.2.countP isLocaleChangedA = 1 :=
  (initialize_localeChanged_contract ⟨true, true⟩ cexRemoteNone 1 stMismatch
    rfl).1 (by decide)


/-- C2 (amended): a population run over `n > 0` tables (with a database
handle present) dispatches exactly `n` `database:progress` events, the
`k`-th (0-based) carrying `currentIndex = k + 1`, the table's name and
the two-decimal progress string for `(k+1)/n`, followed by exactly one
`database:ready` event as the final action; the underlying rounded
progress values are non-decreasing in the index — but only non-decreasing,
not strictly increasing, since `toFixed(2)` can repeat a value once `n`
exceeds 100 — and the final progress string is exactly `"1.00"`. -/
theorem populate_progress_contract (remote : String → Option Response)
    (locale : String) (fuel : Nat) (d : String) (tables : List TableCfg)
    (st : Store) (hne : tables ≠ []) :
    runActs (populateEmptyTables remote locale fuel (some d) tables st) =
      progressEvents tables.length 1 tables ++ [Act.ev .ready] ∧
    (∀ k t, tables[k]? = some t →
      (runActs (populateEmptyTables remote locale fuel (some d) tables st))[k]? =
        some (Act.ev (.progress (k + 1) tables.length t.name
          (.str (toFixed2 (k + 1) tables.length))))) ∧
    (∀ i j, i ≤ j →
      toFixedVal i tables.length ≤ toFixedVal j tables.length) ∧
    toFixed2 tables.length tables.length = "1.00" ∧
    (runActs (populateEmptyTables remote locale fuel (some d) tables st))[tables.length]? =
      some (Act.ev .ready) ∧
    (runActs (populateEmptyTables remote locale fuel (some d) tables st)).length =
      tables.length + 1 := by
  obtain ⟨st2, flag, hrun⟩ :=
    populateAux_events remote locale fuel d tables.length tables 1 st
  have hacts : runActs (populateEmptyTables remote locale fuel (some d) tables st) =
      progressEvents tables.length 1 tables ++ [Act.ev .ready] := by
    unfold populateEmptyTables
    rw [hrun]
    rfl
  have hlen : (progressEvents tables.length 1 tables).length = tables.length :=
    progressEvents_length tables.length 1 tables
  refine ⟨hacts, ?_, ?_, ?_, ?_, ?_⟩
  · intro k t hk
    have hklt : k < tables.length := by
      by_contra hge
      rw [List.getElem?_eq_none (by omega)] at hk
      cases hk
    rw [hacts, List.getElem?_append_left (by rw [hlen]; exact hklt),
      progressEvents_get, hk]
    simp [Nat.add_comm]
  · intro i j h
    exact toFixedVal_mono tables.length i j h
  · exact toFixed2_last tables.length (by
      cases tables with
      | nil => exact absurd rfl hne
      | cons a l => simp)
  · rw [hacts, List.getElem?_append_right (le_of_eq hlen)]
    rw [hlen]
    simp
  · rw [hacts]
    simp [hlen]

/-- Witness for C2: two tables, an always-failing remote, empty store. -/
theorem populate_progress_contract_witness :
    runActs (populateEmptyTables cexRemoteNone "en" 1 (some "db")
        [tableA, tableB] stEmpty) =
      progressEvents 2 1 [tableA, tableB] ++ [Act.ev .ready] ∧
    toFixed2 2 2 = "1.00" := by
  have h := populate_progress_contract cexRemoteNone "en" 1 "db"
    [tableA, tableB] stEmpty (by decide)
  exact ⟨h.1, h.2.2.2.1⟩

/-- Counterexample for C2 as frozen: with 101 empty tables the 50th and
51st `database:progress` events both carry the progress string `"0.50"`
(`(50/101).toFixed(2) = (51/101).toFixed(2)`), so the progress values are
not strictly increasing. -/
theorem populate_progress_not_strict_cex :
    (runActs (populateEmptyTables cexRemoteNone "en" 1 (some "db")
        cexTables101 stEmpty))[49]? =
      some (Act.ev (.progress 50 101 "t49" (.str "0.50"))) ∧
    (runActs (populateEmptyTables cexRemoteNone "en" 1 (some "db")
        cexTables101 stEmpty))[50]? =
      some (Act.ev (.progress 51 101 "t50" (.str "0.50"))) := by
  decide

/-- C6: with an open database handle, per-table sync failures are caught
inside `syncTable` and never propagate: every `syncTable` call resolves
(for any remote behaviour, including failures), the whole
`populateEmptyTables` run resolves, dispatches one progress event per
table — so tables after a failing one are still processed — and its final
action is the terminal `database:ready` event. -/
theorem populate_isolates_sync_failures (remote : String → Option Response)
    (locale : String) (fuel : Nat) (d : String) (tables : List TableCfg)
    (st : Store) :
    (∀ (t : TableCfg) (st2 : Store),
      resOk (syncTable remote locale fuel (some d) (some t) st2) = true) ∧
    runOk (populateEmptyTables remote locale fuel (some d) tables st) = true ∧
    runActs (populateEmptyTables remote locale fuel (some d) tables st) =
      progressEvents tables.length 1 tables ++ [Act.ev .ready] ∧
    (runActs (populateEmptyTables remote locale fuel (some d)
      tables st)).getLast? = some (Act.ev .ready) := by
  obtain ⟨st2, flag, hrun⟩ :=
    populateAux_events remote locale fuel d tables.length tables 1 st
  have hacts : runActs (populateEmptyTables remote locale fuel (some d) tables st) =
      progressEvents tables.length 1 tables ++ [Act.ev .ready] := by
    unfold populateEmptyTables
    rw [hrun]
    rfl
  refine ⟨fun t st2 => syncTable_some_resOk remote locale fuel d (some t) st2,
    ?_, hacts, ?_⟩
  · unfold populateEmptyTables
    rw [hrun]
    rfl
  · rw [hacts]
    exact List.getLast?_concat _

/-- C9: every `database:progress` event dispatched by a population run
carries as `detail.progress` the two-decimal string
`(currentIndex / totalTables).toFixed(2)` — a string value, never a
number, so consumers must coerce it numerically (the bundled listener
multiplies it by 100) — and `totalTables` is the table count of the run. -/
theorem progress_payload_two_decimal_string (remote : String → Option Response)
    (locale : String) (fuel : Nat) (d : String) (tables : List TableCfg)
    (st : Store) (i total : Nat) (nm : String) (v : JSValue)
    (h : Act.ev (.progress i total nm v) ∈
      runActs (populateEmptyTables remote locale fuel (some d) tables st)) :
    v = .str (toFixed2 i total) ∧ total = tables.length ∧
    ∀ x : Int, v ≠ JSValue.num x := by
  obtain ⟨st2, flag, hrun⟩ :=
    populateAux_events remote locale fuel d tables.length tables 1 st
  have hacts : runActs (populateEmptyTables remote locale fuel (some d) tables st) =
      progressEvents tables.length 1 tables ++ [Act.ev .ready] := by
    unfold populateEmptyTables
    rw [hrun]
    rfl
  rw [hacts] at h
  rcases List.mem_append.mp h with h1 | h1
  · obtain ⟨htot, hv⟩ :=
      progressEvents_mem tables.length tables 1 i total nm v h1
    subst htot
    subst hv
    exact ⟨rfl, rfl, fun x hx => JSValue.noConfusion hx⟩
  · simp at h1

/-- Witness for C9: the single progress event of a one-table run. -/
theorem progress_payload_two_decimal_string_witness :
    JSValue.str "1.00" = JSValue.str (toFixed2 1 1) ∧
    (1 : Nat) = [tableA].length := by
  have h := progress_payload_two_decimal_string cexRemoteNone "en" 1 "db"
    [tableA] stEmpty 1 1 "alpha" (.str "1.00") (by decide)
  exact ⟨h.1, h.2.1⟩

/-- Counterexample for C1 as frozen: a response carrying the pagination
cursor `a2` but an empty `member` list.  The run issues exactly one
request (the cursor is never fetched: `r/a2` is not among the requested
URLs), inserts nothing, and still finishes without error — so a present
cursor alone does not cause a follow-up fetch. -/
theorem fetch_cursor_with_empty_member_cex :
    resReqs (fetchTable cexRemoteCursor (some "db") "en" 3 "tbl" "r/" "a1"
      stEmpty) = ["r/a1"] ∧
    "r/a2" ∉ resReqs (fetchTable cexRemoteCursor (some "db") "en" 3 "tbl"
      "r/" "a1" stEmpty) ∧
    resFlag (fetchTable cexRemoteCursor (some "db") "en" 3 "tbl" "r/" "a1"
      stEmpty) = true ∧
    resStore (fetchTable cexRemoteCursor (some "db") "en" 3 "tbl" "r/" "a1"
      stEmpty) "tbl" = [] := by
  decide

/-- Witness for C1 (amended): the spec's three-page chain — page 1 →
page 2 → page 3 → no cursor.  Exactly three requests are issued, in
order, the last not followed by a fourth, and all three pages' records
are inserted. -/
theorem fetchTable_follows_chain_witness :
    fetchTable w1Remote (some "db") "en" 3 "poke" "r/" "p1" stEmpty =
      .ok (insertAll stEmpty "poke" (chainMembers w1Pages),
           chainUrls "r/" "en" w1Pages, true) :=
  fetchTable_follows_chain w1Remote "db" "r/" "en" "poke"
    [("p2", ⟨some [⟨2, 0⟩], some "p3"⟩), ("p3", ⟨some [⟨3, 0⟩], none⟩)]
    "p1" ⟨some [⟨1, 0⟩], some "p2"⟩ stEmpty 3 (by decide) (by decide)

/-- Counterexample for C3 as frozen: page 1 delivers one record and a
cursor to page 2; fetching page 2 fails.  The run logs the failure (flag
`false`) but the table ends with one record, not zero — so a table whose
synchronization failed partway is not empty afterwards (and will not be
rescanned as empty). -/
theorem fetch_partial_failure_cex :
    resFlag (fetchTable cexRemotePartial (some "db") "en" 2 "poke" "r/" "p1"
      stEmpty) = false ∧
    resReqs (fetchTable cexRemotePartial (some "db") "en" 2 "poke" "r/" "p1"
      stEmpty) = ["r/p1", "r/p2"] ∧
    resStore (fetchTable cexRemotePartial (some "db") "en" 2 "poke" "r/" "p1"
      stEmpty) "poke" = [⟨1, ⟨1, 0⟩⟩] ∧
    (resStore (fetchTable cexRemotePartial (some "db") "en" 2 "poke" "r/"
      "p1" stEmpty) "poke").length ≠ 0 := by
  decide

/-- Witness for C3 (amended): the concrete one-page-then-failure chain. -/
theorem fetchTable_chainFail_witness :
    fetchTable cexRemotePartial (some "db") "en" 2 "poke" "r/"
        (chainStart [("p1", ⟨some [⟨1, 0⟩], some "p2"⟩)] "p2") stEmpty =
      .ok (insertAll stEmpty "poke"
            (chainMembers [("p1", ⟨some [⟨1, 0⟩], some "p2"⟩)]),
           chainUrls "r/" "en" [("p1", ⟨some [⟨1, 0⟩], some "p2"⟩)] ++
             [buildUrl "r/" "p2" "en"], false) :=
  fetchTable_chainFail cexRemotePartial "db" "r/" "en" "poke"
    [("p1", ⟨some [⟨1, 0⟩], some "p2"⟩)] "p2" stEmpty 2
    (by decide) (by decide)

